import Mathlib

/-!
Shallow embedding of the pure logic of the resume-as-code repository:
skill comparison (src/resume/ai/agents.py), style-rule validation
(src/resume/ai/style_rules.py), YAML loading with field merging
(src/resume/loader.py), the Experience model (src/resume/models.py) and
PDF text extraction (src/resume/cv_converter.py).

Python floats are modelled as exact rationals, Python dictionaries as
association lists in insertion order, Python exceptions as Option/Except
results, and the filesystem as explicit Option-valued file contents.
-/

namespace Resume

/-- Model of the Python builtin round applied to a rational: round half to
even, to an integer. -/
def pyRound (x : ℚ) : ℤ :=
  if x - Int.floor x < 1/2 then Int.floor x
  else if 1/2 < x - Int.floor x then Int.floor x + 1
  else if Even (Int.floor x) then Int.floor x else Int.floor x + 1

/-- Model of Python round(x, 1): round to one decimal place, half to even. -/
def pyRound1 (x : ℚ) : ℚ := (pyRound (10 * x) : ℚ) / 10

/-- Membership test used by compare_skills: Python `skill.lower() in
resume_skills_lower`, where resume_skills_lower is the set of lowercased
resume skills. -/
def inResumeLower (resume_skills : List String) (skill : String) : Bool :=
  (resume_skills.map String.toLower).contains skill.toLower

/-- Result model of compare_skills (class SkillGapAnalysis in agents.py), the
float percentage modelled as a rational. -/
structure SkillGapAnalysis where
  missing_required_skills : List String
  missing_preferred_skills : List String
  matching_skills : List String
  skill_match_percentage : ℚ
  recommendations : List String
deriving Repr, DecidableEq

/-- Embedding of compare_skills from agents.py.  The matching list is the
source's for-loop over required_skills (a fold that appends), the missing
lists are the source's list comprehensions (filters), the percentage is
len(matching)/len(required_skills)*100 when required_skills is non-empty and
100.0 otherwise, rounded to one decimal place by round(match_pct, 1). -/
def compare_skills (resume_skills required_skills preferred_skills : List String) :
    SkillGapAnalysis :=
  let matching := required_skills.foldl
    (fun acc skill => if inResumeLower resume_skills skill then acc ++ [skill] else acc) []
  let missing_required := required_skills.filter
    (fun s => !(inResumeLower resume_skills s))
  let missing_preferred := preferred_skills.filter
    (fun s => !(inResumeLower resume_skills s))
  let match_pct : ℚ :=
    if required_skills.isEmpty then 100
    else (matching.length : ℚ) / (required_skills.length : ℚ) * 100
  let recommendations :=
    (if !missing_required.isEmpty then
      ["Consider adding these " ++ toString missing_required.length ++
        " required skills to your resume"] else []) ++
    (if match_pct < 70 then
      ["Your resume matches less than 70% of required skills - consider tailoring it more"]
      else []) ++
    (if (required_skills.length : ℚ) * (8/10) ≤ (matching.length : ℚ) then
      ["Strong skill match! Highlight your experience with matching skills"] else []) ++
    (if !missing_preferred.isEmpty && missing_preferred.length ≤ 3 then
      ["Consider highlighting any experience with the preferred skills"] else [])
  { missing_required_skills := missing_required
    missing_preferred_skills := missing_preferred
    matching_skills := matching
    skill_match_percentage := pyRound1 match_pct
    recommendations := recommendations }

/-- Accumulating a filtered element one at a time, as the source's for-loop
over required_skills does, builds exactly the filter of the list. -/
theorem foldl_append_filter (p : String → Bool) (l acc : List String) :
    l.foldl (fun a s => if p s then a ++ [s] else a) acc = acc ++ l.filter p := by
  induction l generalizing acc with
  | nil => simp
  | cons x xs ih =>
      by_cases h : p x <;> simp [List.foldl_cons, h, ih, List.filter_cons]

theorem compare_skills_matching_eq_filter
    (resume required preferred : List String) :
    (compare_skills resume required preferred).matching_skills =
      required.filter (fun s => inResumeLower resume s) := by
  simp [compare_skills, foldl_append_filter]

theorem pyRound_nonneg (x : ℚ) (hx : 0 ≤ x) : 0 ≤ pyRound x := by
  have hf : 0 ≤ Int.floor x := Int.floor_nonneg.mpr hx
  unfold pyRound
  split_ifs <;> omega

theorem pyRound_le_of_le (x : ℚ) (B : ℤ) (hx : x ≤ (B : ℚ)) : pyRound x ≤ B := by
  have hf : Int.floor x ≤ B := by
    have h := Int.floor_le_floor hx
    simpa using h
  unfold pyRound
  split_ifs with h1 h2 h3
  · exact hf
  all_goals
    have hfl : (Int.floor x : ℚ) + 1/2 ≤ x := by linarith
  all_goals
    have hlt : Int.floor x < B := by
      have hq2 : (Int.floor x : ℚ) < (B : ℚ) := by linarith
      exact_mod_cast hq2
  all_goals omega

theorem pyRound_intCast (n : ℤ) : pyRound (n : ℚ) = n := by
  unfold pyRound
  simp

theorem pyRound1_nonneg (x : ℚ) (hx : 0 ≤ x) : 0 ≤ pyRound1 x := by
  unfold pyRound1
  have h : 0 ≤ pyRound (10 * x) := pyRound_nonneg _ (by linarith)
  positivity

theorem pyRound1_le_100 (x : ℚ) (hx : x ≤ 100) : pyRound1 x ≤ 100 := by
  unfold pyRound1
  have h : pyRound (10 * x) ≤ 1000 := by
    apply pyRound_le_of_le
    push_cast
    linarith
  have hq : (pyRound (10 * x) : ℚ) ≤ 1000 := by exact_mod_cast h
  linarith

theorem pyRound1_100 : pyRound1 100 = 100 := by
  have h : ((10 : ℚ) * 100) = ((1000 : ℤ) : ℚ) := by norm_num
  unfold pyRound1
  rw [h, pyRound_intCast]
  norm_num

/-- C2: in compare_skills, skill matching is case-insensitive membership:
matching_skills is exactly the sublist of required_skills (original order and
casing) whose lowercase form occurs among the lowercased resume skills,
missing_required_skills is exactly the remaining required skills in order,
and missing_preferred_skills is exactly the preferred skills whose lowercase
form does not occur among the lowercased resume skills. -/
theorem compare_skills_skill_sets (resume required preferred : List String) :
    (compare_skills resume required preferred).matching_skills =
        required.filter (fun s => (resume.map String.toLower).contains s.toLower) ∧
    (compare_skills resume required preferred).missing_required_skills =
        required.filter (fun s => !((resume.map String.toLower).contains s.toLower)) ∧
    (compare_skills resume required preferred).missing_preferred_skills =
        preferred.filter (fun s => !((resume.map String.toLower).contains s.toLower)) := by
  refine ⟨?_, ?_, ?_⟩ <;>
    simp only [compare_skills, foldl_append_filter, List.nil_append, inResumeLower]

/-- C1: with required_skills non-empty, the returned skill_match_percentage is
100 times the number of required skills whose lowercased form is among the
lowercased resume skills, divided by the number of required skills, rounded
to one decimal place. -/
theorem compare_skills_match_percentage (resume required preferred : List String)
    (h : required ≠ []) :
    (compare_skills resume required preferred).skill_match_percentage =
      pyRound1 (100 * ((required.countP
          (fun s => (resume.map String.toLower).contains s.toLower)) : ℚ) /
        (required.length : ℚ)) := by
  have hne : required.isEmpty = false := by simpa [List.isEmpty_iff] using h
  simp only [compare_skills, hne, foldl_append_filter, List.nil_append, Bool.false_eq_true,
    if_false]
  congr 1
  rw [List.countP_eq_length_filter]
  have hpred : (fun s => (resume.map String.toLower).contains s.toLower) =
      (fun s => inResumeLower resume s) := by
    funext s
    simp [inResumeLower]
  rw [hpred]
  ring

theorem compare_skills_match_percentage_witness :
    (["python", "Go"] : List String) ≠ [] ∧
    (compare_skills ["Python", "aws"] ["python", "Go"] []).skill_match_percentage =
      pyRound1 (100 * (((["python", "Go"] : List String).countP
          (fun s => ((["Python", "aws"] : List String).map String.toLower).contains
            s.toLower)) : ℚ) /
        ((["python", "Go"] : List String).length : ℚ)) :=
  ⟨by simp, compare_skills_match_percentage ["Python", "aws"] ["python", "Go"] [] (by simp)⟩

/-- C8: the returned skill_match_percentage always lies between 0 and 100, and
when required_skills is empty it is exactly 100. -/
theorem compare_skills_percentage_bounds (resume required preferred : List String) :
    0 ≤ (compare_skills resume required preferred).skill_match_percentage ∧
    (compare_skills resume required preferred).skill_match_percentage ≤ 100 ∧
    (required = [] →
      (compare_skills resume required preferred).skill_match_percentage = 100) := by
  by_cases h : required = []
  · subst h
    refine ⟨?_, ?_, fun _ => ?_⟩ <;> simp [compare_skills, pyRound1_100]
  · have hne : required.isEmpty = false := by simpa [List.isEmpty_iff] using h
    have hn : 0 < (required.length : ℚ) := by
      have hl := List.length_pos.mpr h
      exact_mod_cast hl
    have hm : ((required.filter (fun s => inResumeLower resume s)).length : ℚ) ≤
        (required.length : ℚ) := by
      exact_mod_cast List.length_filter_le (fun s => inResumeLower resume s) required
    have hq0 : 0 ≤ ((required.filter (fun s => inResumeLower resume s)).length : ℚ) /
        (required.length : ℚ) * 100 := by positivity
    have hq1 : ((required.filter (fun s => inResumeLower resume s)).length : ℚ) /
        (required.length : ℚ) * 100 ≤ 100 := by
      have hd : ((required.filter (fun s => inResumeLower resume s)).length : ℚ) /
          (required.length : ℚ) ≤ 1 := (div_le_one hn).mpr hm
      linarith
    refine ⟨?_, ?_, fun hh => absurd hh h⟩
    · simp only [compare_skills, hne, foldl_append_filter, List.nil_append,
        Bool.false_eq_true, if_false]
      exact pyRound1_nonneg _ hq0
    · simp only [compare_skills, hne, foldl_append_filter, List.nil_append,
        Bool.false_eq_true, if_false]
      exact pyRound1_le_100 _ hq1

theorem compare_skills_percentage_bounds_witness :
    (compare_skills [] ([] : List String) []).skill_match_percentage = 100 :=
  (compare_skills_percentage_bounds [] [] []).2.2 rfl

/-! Style rules (src/resume/ai/style_rules.py). -/

/-- Word characters of the regex class backslash-w, ASCII model. -/
def isWordChar (c : Char) : Bool := c.isAlphanum || c == '_'

/-- Containment of one string in another: the Python `in` operator on
strings. -/
def containsSub (needle haystack : String) : Bool :=
  (List.range (haystack.data.length + 1)).any
    (fun i => needle.data.isPrefixOf (haystack.data.drop i))

/-- Case-insensitive occurrence of the word w at offset i of s with a word
boundary on each side, modelling one candidate position of a regex search
for the pattern between word-boundary anchors with IGNORECASE. -/
def wordMatchAt (w s : List Char) (i : Nat) : Bool :=
  ((w.map Char.toLower).isPrefixOf ((s.map Char.toLower).drop i)) &&
  (i == 0 || !(isWordChar (s.getD (i - 1) ' '))) &&
  (!(isWordChar (s.getD (i + w.length) ' ')))

/-- Case-insensitive whole-word search of w in s, modelling re.search of the
pattern between word-boundary anchors with re.IGNORECASE. -/
def wordSearch (w s : String) : Bool :=
  (List.range (s.data.length + 1)).any (fun i => wordMatchAt w.data s.data i)

/-- Configurable style rules, with the source defaults
(class StyleRules of style_rules.py). -/
structure StyleRules where
  no_em_dashes : Bool := true
  no_en_dashes : Bool := false
  bullet_end_punctuation : String := ""
  max_bullet_length : Nat := 120
  action_verb_start : Bool := true
  no_first_person : Bool := true
  quantify_achievements : Bool := true
  no_buzzwords : List String :=
    ["synergy", "rockstar", "ninja", "guru", "wizard", "unicorn"]
deriving Repr, DecidableEq

/-- Weak bullet openings rejected by the action-verb check. -/
def weak_starts : List String :=
  ["responsible for", "duties included", "worked on", "helped with"]

/-- Words of the first-person regex patterns of validate_bullet. -/
def first_person_words : List String := ["I", "my", "mine", "we", "our", "ours"]

/-- Check of bullet[0].isupper() guarded by the emptiness test
`not bullet or not bullet[0].isupper()` in validate_bullet. -/
def firstCharUpper (s : String) : Bool :=
  match s.data with
  | [] => false
  | c :: _ => c.isUpper

/-- Truncated bullet preview bullet[:50] followed by an ellipsis, as used in
every violation message. -/
def truncated (bullet : String) : String := bullet.take 50 ++ "..."

def emDashMsg (bullet : String) : String := "Em dash (—) found: " ++ truncated bullet

def enDashMsg (bullet : String) : String := "En dash (–) found: " ++ truncated bullet

def tooLongMsg (r : StyleRules) (bullet : String) : String :=
  "Bullet too long (" ++ toString bullet.length ++ " chars, max " ++
    toString r.max_bullet_length ++ "): " ++ truncated bullet

def capitalMsg (bullet : String) : String :=
  "Bullet doesn\x27t start with capital letter: " ++ truncated bullet

def weakVerbMsg (bullet : String) : String := "Weak action verb: " ++ truncated bullet

def firstPersonMsg (bullet : String) : String :=
  "First person pronoun found: " ++ truncated bullet

def buzzwordMsg (bz bullet : String) : String :=
  "Buzzword \x27" ++ bz ++ "\x27 found: " ++ truncated bullet

def endPunctMsg (r : StyleRules) (bullet : String) : String :=
  "Bullet doesn\x27t end with \x27" ++ r.bullet_end_punctuation ++ "\x27: " ++
    truncated bullet

/-- Embedding of StyleRules.validate_bullet: the violation list is built by
appending, in source order, the em-dash check, the en-dash check, the length
check, the action-verb checks (capital letter, then weak openings), the
first-person check (the for-loop with break appends at most one message),
one buzzword message per configured buzzword found, and the end-punctuation
check, each guarded as in the source. -/
def validate_bullet (r : StyleRules) (bullet : String) : List String :=
  (if r.no_em_dashes && containsSub "—" bullet then [emDashMsg bullet] else []) ++
  (if r.no_en_dashes && containsSub "–" bullet then [enDashMsg bullet] else []) ++
  (if r.max_bullet_length < bullet.length then [tooLongMsg r bullet] else []) ++
  (if r.action_verb_start then
    (if bullet.isEmpty || !(firstCharUpper bullet) then [capitalMsg bullet] else []) ++
    (if weak_starts.any (fun w => bullet.toLower.startsWith w) then
      [weakVerbMsg bullet] else [])
   else []) ++
  (if r.no_first_person && first_person_words.any (fun w => wordSearch w bullet) then
    [firstPersonMsg bullet] else []) ++
  ((r.no_buzzwords.filter (fun bz => containsSub bz.toLower bullet.toLower)).map
    (fun bz => buzzwordMsg bz bullet)) ++
  (if !(r.bullet_end_punctuation.isEmpty) &&
      !(bullet.endsWith r.bullet_end_punctuation) then
    [endPunctMsg r bullet] else [])

theorem if_singleton_eq_nil {α : Type} (c : Prop) [Decidable c] (a : α) :
    (if c then [a] else []) = ([] : List α) ↔ ¬ c := by
  by_cases h : c <;> simp [h]

theorem if_list_eq_nil {α : Type} (c : Prop) [Decidable c] (l : List α) :
    (if c then l else []) = ([] : List α) ↔ (c → l = []) := by
  by_cases h : c <;> simp [h]

/-- C4: validate_bullet returns the empty list exactly when the bullet
violates none of the enabled rules: no em dash when no_em_dashes, no en dash
when no_en_dashes, length at most max_bullet_length, when action_verb_start
the bullet is non-empty, starts with an uppercase character and starts with
no weak phrase, when no_first_person no first-person pronoun occurs as a
whole word case-insensitively, no configured buzzword occurs as a
case-insensitive substring, and when bullet_end_punctuation is non-empty the
bullet ends with it. -/
theorem validate_bullet_empty_iff (r : StyleRules) (bullet : String) :
    validate_bullet r bullet = [] ↔
      ((r.no_em_dashes = true → containsSub "—" bullet = false) ∧
       (r.no_en_dashes = true → containsSub "–" bullet = false) ∧
       bullet.length ≤ r.max_bullet_length ∧
       (r.action_verb_start = true →
         (bullet.isEmpty = false ∧ firstCharUpper bullet = true ∧
          ∀ w ∈ weak_starts, bullet.toLower.startsWith w = false)) ∧
       (r.no_first_person = true →
         ∀ w ∈ first_person_words, wordSearch w bullet = false) ∧
       (∀ bz ∈ r.no_buzzwords, containsSub bz.toLower bullet.toLower = false) ∧
       (r.bullet_end_punctuation.isEmpty = false →
         bullet.endsWith r.bullet_end_punctuation = true)) := by
  simp only [validate_bullet, List.append_eq_nil, if_list_eq_nil, List.map_eq_nil_iff,
    List.filter_eq_nil_iff, Bool.and_eq_true, Bool.or_eq_true, Bool.not_eq_true,
    Bool.not_eq_true', List.any_eq_true]
  simp only [List.cons_ne_nil, imp_false, not_and, not_or, not_exists, not_lt,
    Bool.not_eq_true, Bool.not_eq_false, and_assoc]

/-- C9: on the empty bullet with action_verb_start enabled, validate_bullet
returns a list containing the capital-letter violation (the first-character
test is short-circuited by the emptiness check, so no index error can
occur), hence a non-empty list. -/
theorem validate_bullet_empty_string (r : StyleRules)
    (h : r.action_verb_start = true) :
    capitalMsg "" ∈ validate_bullet r "" ∧ validate_bullet r "" ≠ [] := by
  have hmem : capitalMsg "" ∈ validate_bullet r "" := by
    have hcond : (("" : String).isEmpty || !(firstCharUpper "")) = true := by decide
    simp [validate_bullet, h, hcond]
  refine ⟨hmem, fun hnil => ?_⟩
  rw [hnil] at hmem
  exact List.not_mem_nil _ hmem

theorem validate_bullet_empty_string_witness :
    ({} : StyleRules).action_verb_start = true ∧
    (capitalMsg "" ∈ validate_bullet {} "" ∧ validate_bullet {} "" ≠ []) :=
  ⟨rfl, validate_bullet_empty_string {} rfl⟩

/-- Entry of the content dictionary passed to validate_content: a mapping
which may lack the achievements key (read with exp.get and default []). -/
structure ContentExperience where
  achievements : Option (List String)

/-- Content dictionary passed to validate_content: a mapping which may lack
the experiences key (read with content.get and default []). -/
structure Content where
  experiences : Option (List ContentExperience)

/-- Embedding of StyleRules.validate_content: iterates the experiences and
their achievement bullets, extending the accumulated violation list with
validate_bullet of each bullet. -/
def validate_content (r : StyleRules) (content : Content) : List String :=
  (content.experiences.getD []).foldl
    (fun acc exp =>
      (exp.achievements.getD []).foldl
        (fun acc2 bullet => acc2 ++ validate_bullet r bullet) acc)
    []

/-- Extending an accumulator with f of each element, as the source's
all_violations.extend loop does, appends the flattened image of the list. -/
theorem foldl_extend_eq_append {α : Type} (f : α → List String) (l : List α)
    (acc : List String) :
    l.foldl (fun a x => a ++ f x) acc = acc ++ (l.map f).flatten := by
  induction l generalizing acc with
  | nil => simp
  | cons x xs ih => simp [ih]

/-- C6: validate_content returns exactly the concatenation, in order, of
validate_bullet over every achievement bullet of every experience entry; it
returns the empty list when the experiences key is absent or empty, and when
no entry has achievement bullets. -/
theorem validate_content_spec (r : StyleRules) (content : Content) :
    validate_content r content =
      ((content.experiences.getD []).map
        (fun exp => ((exp.achievements.getD []).map (validate_bullet r)).flatten)).flatten ∧
    (content.experiences = none ∨ content.experiences = some [] →
      validate_content r content = []) ∧
    ((∀ exp ∈ content.experiences.getD [], exp.achievements.getD [] = []) →
      validate_content r content = []) := by
  have hmain : validate_content r content =
      ((content.experiences.getD []).map
        (fun exp =>
          ((exp.achievements.getD []).map (validate_bullet r)).flatten)).flatten := by
    unfold validate_content
    have hstep : (fun (acc : List String) (exp : ContentExperience) =>
        (exp.achievements.getD []).foldl
          (fun acc2 bullet => acc2 ++ validate_bullet r bullet) acc) =
        (fun acc exp =>
          acc ++ ((exp.achievements.getD []).map (validate_bullet r)).flatten) := by
      funext acc exp
      exact foldl_extend_eq_append (validate_bullet r) _ acc
    rw [hstep, foldl_extend_eq_append]
    simp
  refine ⟨hmain, ?_, ?_⟩
  · rintro (hnone | hempty)
    · rw [hmain, hnone]
      simp
    · rw [hmain, hempty]
      simp
  · intro hach
    rw [hmain]
    simp only [List.flatten_eq_nil_iff, List.mem_map]
    rintro l ⟨exp, hexp, rfl⟩
    rw [hach exp hexp]
    simp

theorem validate_content_spec_witness :
    validate_content {} ⟨none⟩ = [] :=
  (validate_content_spec {} ⟨none⟩).2.1 (Or.inl rfl)

/-! Loader (src/resume/loader.py), with Python dictionaries modelled as
association lists in insertion order and missing files as none. -/

/-- Lookup in a Python dictionary modelled as an association list: the value
of the first entry with the given key, none when absent. -/
def dictGet {V : Type} : List (String × V) → String → Option V
  | [], _ => none
  | (k0, v) :: rest, k => if k0 = k then some v else dictGet rest k

/-- Assignment d[k] = v in a Python dictionary: replace the value of the
existing entry in place, else append a new entry. -/
def dictSet {V : Type} : List (String × V) → String → V → List (String × V)
  | [], k, v => [(k, v)]
  | (k0, v0) :: rest, k, v =>
      if k0 = k then (k, v) :: rest else (k0, v0) :: dictSet rest k v

/-- Python dict.update: assign every entry of p, in order, into c. -/
def dictUpdate {V : Type} (c p : List (String × V)) : List (String × V) :=
  p.foldl (fun acc kv => dictSet acc kv.1 kv.2) c

/-- Merged header mapping computed by ResumeLoader.load_header: the common
header data, updated by the profile header data when the profile header file
exists (none models a missing profile header file). -/
def mergedHeaderData {V : Type} (common : List (String × V))
    (profileHeader : Option (List (String × V))) : List (String × V) :=
  match profileHeader with
  | some p => dictUpdate common p
  | none => common

/-- Header model (class Header of models.py), field values left abstract. -/
structure HeaderD (V : Type) where
  name : V
  title : V
  contact : V

/-- Construction of the Header from a header mapping: pop the contact entry
and read the name and title entries; a missing key raises KeyError,
modelled as none. -/
def headerFromData {V : Type} (d : List (String × V)) : Option (HeaderD V) :=
  match dictGet d "contact", dictGet d "name", dictGet d "title" with
  | some contact, some name, some title => some ⟨name, title, contact⟩
  | _, _, _ => none

/-- Embedding of ResumeLoader.load_header: merge the common header mapping
with the profile one when the profile header file exists, then build the
Header from the merged mapping. -/
def load_header {V : Type} (common : List (String × V))
    (profileHeader : Option (List (String × V))) : Option (HeaderD V) :=
  headerFromData (mergedHeaderData common profileHeader)

theorem dictGet_dictSet {V : Type} (d : List (String × V)) (k0 k : String) (v : V) :
    dictGet (dictSet d k0 v) k = if k0 = k then some v else dictGet d k := by
  induction d with
  | nil => simp [dictSet, dictGet]
  | cons kv rest ih =>
      obtain ⟨k1, v1⟩ := kv
      by_cases h1 : k1 = k0
      · subst h1
        by_cases h2 : k1 = k <;> simp [dictSet, dictGet, h2]
      · by_cases h2 : k0 = k
        · subst h2
          have h3 : k1 ≠ k0 := h1
          simp [dictSet, dictGet, h1, h3, ih]
        · by_cases h3 : k1 = k <;>
            simp [dictSet, dictGet, h1, h2, h3, Ne.symm h2, ih]

theorem dictGet_eq_none_of_not_mem {V : Type} (d : List (String × V)) (k : String)
    (h : k ∉ d.map Prod.fst) : dictGet d k = none := by
  induction d with
  | nil => rfl
  | cons kv rest ih =>
      obtain ⟨k1, v1⟩ := kv
      simp only [List.map_cons, List.mem_cons, not_or] at h
      have h1 : k1 ≠ k := fun hk => h.1 hk.symm
      simp [dictGet, h1, ih h.2]

theorem dictGet_dictUpdate {V : Type} (c p : List (String × V)) (k : String)
    (hp : (p.map Prod.fst).Nodup) :
    dictGet (dictUpdate c p) k =
      match dictGet p k with
      | some v => some v
      | none => dictGet c k := by
  induction p generalizing c with
  | nil => simp [dictUpdate, dictGet]
  | cons kv rest ih =>
      obtain ⟨k1, v1⟩ := kv
      simp only [List.map_cons, List.nodup_cons] at hp
      have hupd : dictUpdate c ((k1, v1) :: rest) =
          dictUpdate (dictSet c k1 v1) rest := rfl
      rw [hupd, ih _ hp.2]
      by_cases h : k1 = k
      · subst h
        have hnone : dictGet rest k1 = none :=
          dictGet_eq_none_of_not_mem _ _ hp.1
        simp [dictGet, hnone, dictGet_dictSet]
      · cases hres : dictGet rest k <;> simp [dictGet, h, hres, dictGet_dictSet]

/-- C3: load_header builds the Header from the common mapping updated
key-wise by the profile mapping when the profile header file exists: every
key of the profile mapping takes the profile value, every key present only
in the common mapping keeps the common value; when the profile header file
does not exist the Header is built from the common mapping alone. -/
theorem load_header_merge {V : Type} (c p : List (String × V))
    (hp : (p.map Prod.fst).Nodup) :
    load_header c (some p) = headerFromData (mergedHeaderData c (some p)) ∧
    (∀ k v, dictGet p k = some v → dictGet (mergedHeaderData c (some p)) k = some v) ∧
    (∀ k, dictGet p k = none → dictGet (mergedHeaderData c (some p)) k = dictGet c k) ∧
    load_header c none = headerFromData c := by
  refine ⟨rfl, ?_, ?_, rfl⟩
  · intro k v hkv
    show dictGet (dictUpdate c p) k = some v
    rw [dictGet_dictUpdate c p k hp, hkv]
  · intro k hk
    show dictGet (dictUpdate c p) k = dictGet c k
    rw [dictGet_dictUpdate c p k hp, hk]

theorem load_header_merge_witness :
    ((([("title", 9)] : List (String × Nat)).map Prod.fst).Nodup ∧
      dictGet (mergedHeaderData [("name", 1), ("title", 2)] (some [("title", 9)]))
        "title" = some 9 ∧
      dictGet (mergedHeaderData [("name", 1), ("title", 2)] (some [("title", 9)]))
        "name" = dictGet [("name", 1), ("title", 2)] "name") :=
  ⟨by simp,
   (load_header_merge [("name", 1), ("title", 2)] [("title", 9)] (by simp)).2.1
     "title" 9 (by simp [dictGet]),
   (load_header_merge [("name", 1), ("title", 2)] [("title", 9)] (by simp)).2.2.1
     "name" (by simp [dictGet])⟩

/-- Date model (datetime.date), field ranges not modelled. -/
structure PyDate where
  year : Nat
  month : Nat
  day : Nat
deriving Repr, DecidableEq

/-- Embedding of ResumeLoader._parse_date: split the string on "-" and read
the first three parts as integers; a malformed string raises, modelled as
none. -/
def parse_date (s : String) : Option PyDate :=
  match (s.splitOn "-").map String.toNat? with
  | some y :: some m :: some d :: _ => some ⟨y, m, d⟩
  | _ => none

/-- Experience model (class Experience of models.py), with its source
defaults. -/
structure Experience where
  company : String
  title : String
  location : Option String := none
  start_date : PyDate
  end_date : Option PyDate := none
  current : Bool := false
  achievements : List String := []
  technologies : List String := []
deriving Repr, DecidableEq

/-- Embedding of the Experience.is_current property: current position when
the current flag is set or end_date is None. -/
def Experience.is_current (e : Experience) : Bool :=
  e.current || e.end_date.isNone

/-- C10: is_current returns true whenever end_date is None, even when the
current flag is false, and it returns false exactly when current is false
and end_date is set. -/
theorem experience_is_current_spec (e : Experience) :
    (e.end_date = none → e.is_current = true) ∧
    (e.is_current = false ↔ e.current = false ∧ e.end_date ≠ none) := by
  obtain ⟨c, t, loc, sd, ed, cur, a, tec⟩ := e
  cases cur <;> cases ed <;> simp [Experience.is_current]

theorem experience_is_current_spec_witness :
    (Experience.mk "Acme" "SRE" none ⟨2020, 1, 1⟩ none false [] []).is_current = true :=
  (experience_is_current_spec _).1 rfl

/-- Raw YAML mapping of one entry of the experiences list: indexing raises
for company, title and start_date when absent, the other keys are read with
.get and a default. -/
structure ExpYamlEntry where
  company : Option String := none
  title : Option String := none
  location : Option String := none
  start_date : Option String := none
  end_date : Option String := none
  current : Option Bool := none
  achievements : Option (List String) := none
  technologies : Option (List String) := none

/-- Raw contents of an experience.yml file: indexing data with a missing
experiences key raises, modelled as none. -/
structure ExpYaml where
  experiences : Option (List ExpYamlEntry)

/-- Parse of one entry of the experiences list inside load_experience: the
date strings are converted, end_date is parsed only when present and truthy,
the optional keys take their defaults; any raise is modelled as none. -/
def parseExpEntry (e : ExpYamlEntry) : Option Experience :=
  match e.company, e.title, e.start_date with
  | some company, some title, some sd =>
      match parse_date sd with
      | none => none
      | some start =>
          let endRaw := match e.end_date with
            | some s => if s.isEmpty then none else some s
            | none => none
          match endRaw with
          | some s =>
              match parse_date s with
              | none => none
              | some endD =>
                  some { company := company, title := title, location := e.location,
                         start_date := start, end_date := some endD,
                         current := e.current.getD false,
                         achievements := e.achievements.getD [],
                         technologies := e.technologies.getD [] }
          | none =>
              some { company := company, title := title, location := e.location,
                     start_date := start, end_date := none,
                     current := e.current.getD false,
                     achievements := e.achievements.getD [],
                     technologies := e.technologies.getD [] }
  | _, _, _ => none

/-- Processing of the experiences list of a loaded experience.yml, as done by
the loop of load_experience; a raise on any entry aborts the whole load. -/
def parseExpFile (d : ExpYaml) : Option (List Experience) :=
  match d.experiences with
  | none => none
  | some entries => entries.mapM parseExpEntry

/-- Embedding of ResumeLoader.load_experience: read the profile experience
file when it exists, else fall back to the common one, and process the
chosen file; a missing file raises, modelled as none. -/
def load_experience (profileFile commonFile : Option ExpYaml) :
    Option (List Experience) :=
  match (match profileFile with | some d => some d | none => commonFile) with
  | none => none
  | some data => parseExpFile data

/-- Skill model (class Skill of models.py). -/
structure Skill where
  name : String
  category : Option String := none
  proficiency : Option String := none
deriving Repr, DecidableEq

/-- Raw YAML mapping of one entry of the skills list: the Skill model
requires name and leaves category and proficiency optional. -/
structure SkillYamlEntry where
  name : Option String := none
  category : Option String := none
  proficiency : Option String := none

/-- Raw contents of a skills.yml file: indexing data with a missing skills
key raises, modelled as none. -/
structure SkillYaml where
  skills : Option (List SkillYamlEntry)

/-- Validation of one skills entry by the Skill model: a missing name
raises, modelled as none. -/
def parseSkillEntry (e : SkillYamlEntry) : Option Skill :=
  match e.name with
  | some n => some ⟨n, e.category, e.proficiency⟩
  | none => none

/-- Processing of the skills list of a loaded skills.yml, as done by the
comprehension of load_skills. -/
def parseSkillFile (d : SkillYaml) : Option (List Skill) :=
  match d.skills with
  | none => none
  | some entries => entries.mapM parseSkillEntry

/-- Embedding of ResumeLoader.load_skills: read the profile skills file when
it exists, else fall back to the common one, and process the chosen file. -/
def load_skills (profileFile commonFile : Option SkillYaml) :
    Option (List Skill) :=
  match (match profileFile with | some d => some d | none => commonFile) with
  | none => none
  | some data => parseSkillFile data

/-- C5: the profile override of experience and skills is whole-file: when
the profile file exists, the result is the processed profile file whatever
the common file holds, and when it does not exist the result is the
processed common file; exactly one of the two files determines the result. -/
theorem load_experience_skills_whole_file :
    (∀ (pf : ExpYaml) (c c2 : Option ExpYaml),
        load_experience (some pf) c = load_experience (some pf) c2) ∧
    (∀ (pf : ExpYaml) (c : Option ExpYaml),
        load_experience (some pf) c = parseExpFile pf) ∧
    (∀ cf : ExpYaml, load_experience none (some cf) = parseExpFile cf) ∧
    (∀ (ps : SkillYaml) (c c2 : Option SkillYaml),
        load_skills (some ps) c = load_skills (some ps) c2) ∧
    (∀ (ps : SkillYaml) (c : Option SkillYaml),
        load_skills (some ps) c = parseSkillFile ps) ∧
    (∀ cf : SkillYaml, load_skills none (some cf) = parseSkillFile cf) :=
  ⟨fun _ _ _ => rfl, fun _ _ => rfl, fun _ => rfl,
   fun _ _ _ => rfl, fun _ _ => rfl, fun _ => rfl⟩

/-! PDF text extraction (src/resume/cv_converter.py). -/

/-- PDF file model: the per-page results of page.extract_text(), in page
order; none models a page whose extraction returns None. -/
structure PdfFile where
  pages : List (Option String)

/-- Exceptions raised by extract_text_from_pdf. -/
inductive PdfError where
  | fileNotFound
  | runtimeError
deriving Repr, DecidableEq

/-- Truthiness test `if text:` applied to one page extraction result: kept
exactly when the text is neither None nor empty. -/
def truthyText (t : Option String) : Option String :=
  match t with
  | some s => if s.isEmpty then none else some s
  | none => none

/-- Embedding of extract_text_from_pdf: FileNotFoundError when the path does
not exist (the file is none); otherwise collect the truthy page texts in
page order, raise RuntimeError when none remain, else join them with two
newline characters. -/
def extract_text_from_pdf (file : Option PdfFile) : Except PdfError String :=
  match file with
  | none => Except.error PdfError.fileNotFound
  | some pdf =>
      let text_content := pdf.pages.filterMap truthyText
      if text_content.isEmpty then Except.error PdfError.runtimeError
      else Except.ok (String.intercalate "\n\n" text_content)

/-- C7: extract_text_from_pdf raises FileNotFoundError exactly when the path
does not exist; when it exists, it raises RuntimeError exactly when no page
yields any text, and otherwise returns the truthy per-page texts joined by
two newline characters in page order. -/
theorem extract_text_from_pdf_spec (file : Option PdfFile) :
    (extract_text_from_pdf file = Except.error PdfError.fileNotFound ↔ file = none) ∧
    (∀ pdf, file = some pdf →
      ((extract_text_from_pdf file = Except.error PdfError.runtimeError ↔
          ∀ t ∈ pdf.pages, truthyText t = none) ∧
       (pdf.pages.filterMap truthyText ≠ [] →
          extract_text_from_pdf file =
            Except.ok (String.intercalate "\n\n" (pdf.pages.filterMap truthyText))))) := by
  cases file with
  | none =>
      refine ⟨by simp [extract_text_from_pdf], ?_⟩
      intro pdf h
      cases h
  | some pdf =>
      refine ⟨?_, ?_⟩
      · by_cases h : pdf.pages.filterMap truthyText = [] <;>
          simp [extract_text_from_pdf, List.isEmpty_iff, h]
      · intro pdf2 heq
        obtain rfl : pdf = pdf2 := Option.some.inj heq
        by_cases h : pdf.pages.filterMap truthyText = [] <;>
          simp [extract_text_from_pdf, List.isEmpty_iff, h]
        · exact List.filterMap_eq_nil_iff.mp h
        · have h2 := h
          rw [List.filterMap_eq_nil_iff] at h2
          push_neg at h2
          obtain ⟨x, hx, hne⟩ := h2
          exact ⟨x, hx, hne⟩

theorem extract_text_from_pdf_spec_witness :
    extract_text_from_pdf (some ⟨[some "a", none]⟩) =
      Except.ok (String.intercalate "\n\n"
        (List.filterMap truthyText [some "a", none])) :=
  ((extract_text_from_pdf_spec (some ⟨[some "a", none]⟩)).2
    ⟨[some "a", none]⟩ rfl).2 (by decide)

end Resume
